import Mathlib

/-!
Shallow embedding of `pbio.py` (FASTA DNA sequence generator).

Strings of the Python program are modelled as `List Char`; the two random
draws of the program (`random.choice` inside `generate_dna_sequence` and
`random.randint(0, len(sequence))` inside `insert_name`) are passed in as
explicit parameters; the statistics percentages are exact rationals; the
file system is a map from paths to file contents.
-/

namespace PBio

/-- The nucleotide alphabet `['A', 'C', 'G', 'T']` of `generate_dna_sequence`. -/
def nucleotides : List Char := ['A', 'C', 'G', 'T']

/-- Embedding of `generate_dna_sequence(length)` (pbio.py:10-16).  Each call
`random.choice(nucleotides)` in the generator expression is modelled by the
outcome function `choice : Nat → Fin 4`, giving the index drawn at each of the
`length` iterations. -/
def generate_dna_sequence (length : Nat) (choice : Nat → Fin 4) : List Char :=
  (List.range length).map (fun i => nucleotides.get ⟨(choice i).val, (choice i).isLt⟩)

/-- Embedding of `insert_name(sequence, name)` (pbio.py:18-28).  The draw
`random.randint(0, len(sequence))` is the parameter `insert_position`; the
caller guarantees `insert_position ≤ sequence.length`.  Python slices
`sequence[:pos]` and `sequence[pos:]` are `List.take` and `List.drop`. -/
def insert_name (sequence name : List Char) (insert_position : Nat) : List Char :=
  if sequence.length = 0 then name
  else sequence.take insert_position ++ name ++ sequence.drop insert_position

/-- The mapping `{'A': _, 'C': _, 'G': _, 'T': _, 'CG': _}` returned by
`calculate_statistics`, with exact rational percentages. -/
structure Stats where
  A : ℚ
  C : ℚ
  G : ℚ
  T : ℚ
  CG : ℚ
deriving DecidableEq

/-- Embedding of `calculate_statistics(sequence)` (pbio.py:30-49).
`sequence.count(c)` is `List.count c sequence`; `/` is exact rational
division (the guard `total = 0` makes the divisor nonzero in the else
branch). -/
def calculate_statistics (sequence : List Char) : Stats :=
  let total := sequence.length
  if total = 0 then
    { A := 0, C := 0, G := 0, T := 0, CG := 0 }
  else
    let countA := sequence.count 'A'
    let countC := sequence.count 'C'
    let countG := sequence.count 'G'
    let countT := sequence.count 'T'
    { A := ((countA : ℚ) / total) * 100
      C := ((countC : ℚ) / total) * 100
      G := ((countG : ℚ) / total) * 100
      T := ((countT : ℚ) / total) * 100
      CG := (((countC : ℚ) + (countG : ℚ)) / total) * 100 }

/-- A file system: each path either holds a file's contents or no file. -/
abbrev FileSystem := List Char → Option (List Char)

/-- Opening a path with mode `'w'` and writing `contents` replaces whatever
was at `path` before; every other path is untouched. -/
def writeFile (fs : FileSystem) (path contents : List Char) : FileSystem :=
  fun p => if p = path then some contents else fs p

/-- Embedding of `save_fasta_file(seq_id, description, sequence)`
(pbio.py:51-56) as a pure value: first component the filename
`f"{seq_id}.fasta"`, second component the bytes written,
`f">{seq_id} {description}\n{sequence}\n"`. -/
def save_fasta_file (seq_id description sequence : List Char) :
    List Char × List Char :=
  let filename := seq_id ++ ['.', 'f', 'a', 's', 't', 'a']
  (filename, '>' :: (seq_id ++ ' ' :: (description ++ '\n' :: (sequence ++ ['\n']))))

/-- `save_fasta_file` run against a file system: returns the filename
(the function's return value) and the updated file system. -/
def run_save_fasta (fs : FileSystem) (seq_id description sequence : List Char) :
    List Char × FileSystem :=
  let r := save_fasta_file seq_id description sequence
  (r.1, writeFile fs r.1 r.2)

/-- Python whitespace characters stripped by `int(str)` and `str.strip()`:
space, tab, newline, carriage return, vertical tab, form feed (the ASCII
fragment; the program only ever handles ASCII input). -/
def isPyWhitespace (c : Char) : Bool :=
  c = ' ' || c = '\t' || c = '\n' || c = '\r' || c = Char.ofNat 11 || c = Char.ofNat 12

/-- Removes leading and trailing Python whitespace, as `str.strip()` does. -/
def pyStrip (s : List Char) : List Char :=
  ((s.dropWhile isPyWhitespace).reverse.dropWhile isPyWhitespace).reverse

/-- The value of an ASCII decimal digit, or `none` for any other character. -/
def digitVal (c : Char) : Option Nat :=
  if c.isDigit then some (c.toNat - '0'.toNat) else none

/-- Continues parsing a Python integer literal after its first digit:
each further character is a digit, or a single underscore that must be
followed by a digit (Python rejects trailing, leading and doubled
underscores). -/
def pyDigitsAux (acc : Nat) : List Char → Option Nat
  | [] => some acc
  | '_' :: c :: rest =>
      match digitVal c with
      | some d => pyDigitsAux (acc * 10 + d) rest
      | none => none
  | c :: rest =>
      match digitVal c with
      | some d => pyDigitsAux (acc * 10 + d) rest
      | none => none

/-- Parses a nonempty run of digits with optional single underscores
between digits; the first character must be a digit. -/
def pyDigits : List Char → Option Nat
  | [] => none
  | c :: rest =>
      match digitVal c with
      | some d => pyDigitsAux d rest
      | none => none

/-- Model of Python's built-in `int(str)` on the ASCII fragment the program
uses: strip surrounding whitespace, accept one optional `'+'` or `'-'` sign,
then decimal digits with single underscores between digits; any other shape
raises `ValueError`, modelled as `none`. -/
def pyInt (s : List Char) : Option Int :=
  match pyStrip s with
  | '+' :: rest => (pyDigits rest).map (fun n => (n : Int))
  | '-' :: rest => (pyDigits rest).map (fun n => -(n : Int))
  | rest => (pyDigits rest).map (fun n => (n : Int))

/-- Embedding of `validate_sequence_length(input_str)` (pbio.py:58-69).
Both failure paths — `int()` raising `ValueError`, and the explicit
`raise ValueError("Length must be positive")` for `length <= 0` — are
caught by the same `except ValueError` and re-raised with the single
user-facing message. -/
def validate_sequence_length (input_str : List Char) : Except String Int :=
  match pyInt input_str with
  | none => .error "Please enter a valid positive integer"
  | some length =>
      if length ≤ 0 then .error "Please enter a valid positive integer"
      else .ok length

/-- The observable outcome of a successful run of `main`: the filename
reported to the user, the statistics printed, and the resulting file
system. -/
structure MainOutput where
  filename : List Char
  stats : Stats
  fs : FileSystem

/-- Embedding of `main()` (pbio.py:71-101).  The four prompted strings are
parameters; `.strip()` on the three free-text inputs is `pyStrip`; the random
draws are `choice` and `insert_position`; the `except Exception` handler is
the `Except.error` branch carrying the message printed after `"Error: "`. -/
def main (lengthStr seq_id_raw description_raw name_raw : List Char)
    (choice : Nat → Fin 4) (insert_position : Nat) (fs : FileSystem) :
    Except String MainOutput :=
  match validate_sequence_length lengthStr with
  | .error e => .error e
  | .ok length =>
      let seq_id := pyStrip seq_id_raw
      let description := pyStrip description_raw
      let name := pyStrip name_raw
      let dna_sequence := generate_dna_sequence length.toNat choice
      let stats := calculate_statistics dna_sequence
      let final_sequence := insert_name dna_sequence name insert_position
      let r := run_save_fasta fs seq_id description final_sequence
      .ok { filename := r.1, stats := stats, fs := r.2 }

/-! ## Helper lemmas -/

/-- On a sequence drawn entirely from the nucleotide alphabet, the four
per-letter counts add up to the sequence length. -/
theorem count_nucleotides_eq_length (s : List Char)
    (hmem : ∀ c ∈ s, c ∈ nucleotides) :
    s.count 'A' + s.count 'C' + s.count 'G' + s.count 'T' = s.length := by
  induction s with
  | nil => rfl
  | cons c rest ih =>
      have hc : c ∈ nucleotides := hmem c (List.mem_cons_self c rest)
      have hrest := ih (fun x hx => hmem x (List.mem_cons_of_mem c hx))
      simp only [nucleotides, List.mem_cons, List.not_mem_nil, or_false] at hc
      rcases hc with rfl | rfl | rfl | rfl <;>
        simp +decide only [List.count_cons, List.length_cons, if_true, if_false] <;>
        omega

/-! ## Claim theorems -/

/-- C1: `calculate_statistics` counts occurrences of exactly the characters
'A', 'C', 'G', 'T' (case-sensitive: each per-letter count is the number of
positions holding exactly that character, so any other character is excluded
from all four counts while still contributing to the `sequence.length`
divisor), and on nonempty input returns `(count / len) * 100` for each
nucleotide and `((count_C + count_G) / len) * 100` for CG; on "AACGT" it
returns A=40, C=20, G=20, T=20, CG=40. -/
theorem calculate_statistics_spec :
    (∀ sequence : List Char,
      calculate_statistics sequence =
        if sequence.length = 0 then ⟨0, 0, 0, 0, 0⟩
        else
          { A := (((sequence.filter (fun c => c == 'A')).length : ℚ) / sequence.length) * 100
            C := (((sequence.filter (fun c => c == 'C')).length : ℚ) / sequence.length) * 100
            G := (((sequence.filter (fun c => c == 'G')).length : ℚ) / sequence.length) * 100
            T := (((sequence.filter (fun c => c == 'T')).length : ℚ) / sequence.length) * 100
            CG := ((((sequence.filter (fun c => c == 'C')).length : ℚ) +
                ((sequence.filter (fun c => c == 'G')).length : ℚ)) / sequence.length) * 100 }) ∧
    calculate_statistics ['A', 'A', 'C', 'G', 'T'] = ⟨40, 20, 20, 20, 40⟩ := by
  constructor
  · intro sequence
    simp only [calculate_statistics, List.count, List.countP_eq_length_filter]
  · simp [calculate_statistics]
    norm_num

/-- C2 counterexample: the claim quantifies over every sequence whose
characters all lie in {A, C, G, T}, but the empty sequence satisfies that
hypothesis vacuously and its four percentages sum to 0, not 100. -/
theorem sum_100_all_nucleotides_false :
    ¬ (∀ s : List Char, (∀ c ∈ s, c ∈ nucleotides) →
        (calculate_statistics s).A + (calculate_statistics s).C +
          (calculate_statistics s).G + (calculate_statistics s).T = 100) := by
  intro h
  have h0 := h [] (fun c hc => absurd hc (List.not_mem_nil c))
  rw [show calculate_statistics [] = ⟨0, 0, 0, 0, 0⟩ from rfl] at h0
  norm_num at h0

/-- C2 (amended): for every nonempty sequence whose characters all belong to
{A, C, G, T}, the four percentages returned by `calculate_statistics` sum to
exactly 100 over exact rational arithmetic. -/
theorem sum_100_of_nucleotides (s : List Char) (hne : s ≠ [])
    (hmem : ∀ c ∈ s, c ∈ nucleotides) :
    (calculate_statistics s).A + (calculate_statistics s).C +
      (calculate_statistics s).G + (calculate_statistics s).T = 100 := by
  have hlen : s.length ≠ 0 := fun h0 => hne (List.length_eq_zero.mp h0)
  have hsum : s.count 'A' + s.count 'C' + s.count 'G' + s.count 'T' = s.length :=
    count_nucleotides_eq_length s hmem
  have hq : (s.length : ℚ) ≠ 0 := Nat.cast_ne_zero.mpr hlen
  have hsumq : ((s.count 'A' : ℚ)) + (s.count 'C' : ℚ) + (s.count 'G' : ℚ) +
      (s.count 'T' : ℚ) = (s.length : ℚ) := by exact_mod_cast hsum
  simp only [calculate_statistics, if_neg hlen]
  field_simp
  linarith [hsumq]

/-- C2 witness: a concrete nonempty all-nucleotide sequence where the four
percentages sum to 100. -/
theorem sum_100_of_nucleotides_witness :
    (calculate_statistics ['A', 'C', 'G', 'T', 'T']).A +
      (calculate_statistics ['A', 'C', 'G', 'T', 'T']).C +
      (calculate_statistics ['A', 'C', 'G', 'T', 'T']).G +
      (calculate_statistics ['A', 'C', 'G', 'T', 'T']).T = 100 :=
  sum_100_of_nucleotides ['A', 'C', 'G', 'T', 'T'] (by decide) (by decide)

/-- C3: for every sequence, name and insertion index `p ≤ sequence.length`,
`insert_name` returns `sequence[:p] + name + sequence[p:]`; hence the result
has length `len(sequence) + len(name)`, contains the name as a contiguous
substring, the characters around that substring reconstruct the sequence in
order, and on an empty sequence the result is exactly the name. -/
theorem insert_name_spec (sequence name : List Char) (insert_position : Nat)
    (hp : insert_position ≤ sequence.length) :
    insert_name sequence name insert_position =
        sequence.take insert_position ++ name ++ sequence.drop insert_position ∧
      (insert_name sequence name insert_position).length =
        sequence.length + name.length ∧
      (∃ l r, insert_name sequence name insert_position = l ++ name ++ r ∧
        l ++ r = sequence) ∧
      insert_name [] name insert_position = name := by
  have heq : insert_name sequence name insert_position =
      sequence.take insert_position ++ name ++ sequence.drop insert_position := by
    unfold insert_name
    split
    · next h0 =>
        have : sequence = [] := List.length_eq_zero.mp h0
        subst this
        simp
    · rfl
  refine ⟨heq, ?_, ⟨_, _, heq, List.take_append_drop _ _⟩, rfl⟩
  rw [heq]
  simp only [List.length_append, List.length_take, List.length_drop]
  omega

/-- C3 witness: inserting "Bob" into "AC" at index 1. -/
theorem insert_name_spec_witness :
    insert_name ['A', 'C'] ['B', 'o', 'b'] 1 =
        List.take 1 ['A', 'C'] ++ ['B', 'o', 'b'] ++ List.drop 1 ['A', 'C'] ∧
      (insert_name ['A', 'C'] ['B', 'o', 'b'] 1).length =
        (['A', 'C'] : List Char).length + (['B', 'o', 'b'] : List Char).length ∧
      (∃ l r, insert_name ['A', 'C'] ['B', 'o', 'b'] 1 = l ++ ['B', 'o', 'b'] ++ r ∧
        l ++ r = ['A', 'C']) ∧
      insert_name [] ['B', 'o', 'b'] 1 = ['B', 'o', 'b'] :=
  insert_name_spec ['A', 'C'] ['B', 'o', 'b'] 1 (by norm_num)

/-- C4: `validate_sequence_length` fails with the `InvalidLength` message
exactly when the input does not parse as a Python integer or parses to a
value at most zero, and otherwise returns the parsed positive value; in
particular "0", "-5" and "abc" fail and "42" returns 42. -/
theorem validate_sequence_length_spec :
    ∀ s : List Char,
      ((∃ e, validate_sequence_length s = .error e) ↔
        pyInt s = none ∨ ∃ v, pyInt s = some v ∧ v ≤ 0) ∧
      (∀ v : Int, validate_sequence_length s = .ok v ↔ pyInt s = some v ∧ 0 < v) ∧
      validate_sequence_length ['0'] = .error "Please enter a valid positive integer" ∧
      validate_sequence_length ['-', '5'] =
        .error "Please enter a valid positive integer" ∧
      validate_sequence_length ['a', 'b', 'c'] =
        .error "Please enter a valid positive integer" ∧
      validate_sequence_length ['4', '2'] = .ok 42 := by
  intro s
  refine ⟨?_, ?_, rfl, rfl, rfl, rfl⟩
  · unfold validate_sequence_length
    cases hp : pyInt s with
    | none => simp
    | some v =>
        by_cases hv : v ≤ 0 <;> simp [hv]
  · intro v
    unfold validate_sequence_length
    cases hp : pyInt s with
    | none => simp
    | some w =>
        by_cases hw : w ≤ 0 <;> simp [hw]
        · intro h
          omega
        · intro h
          subst h
          omega

/-- C5: `save_fasta_file(i, d, s)` writes to path `i + ".fasta"` exactly the
two lines `">" + i + " " + d + "\n" + s + "\n"`, overwriting whatever file
was at that path, leaves every other path untouched, and returns
`i + ".fasta"`; in particular on ("seq1", "test sequence", "ACGT") it
produces the file "seq1.fasta" holding ">seq1 test sequence\nACGT\n" and
returns "seq1.fasta". -/
theorem save_fasta_file_spec :
    ∀ (seq_id description sequence : List Char) (fs : FileSystem),
      (run_save_fasta fs seq_id description sequence).1 =
          seq_id ++ ['.', 'f', 'a', 's', 't', 'a'] ∧
      (run_save_fasta fs seq_id description sequence).2
          (seq_id ++ ['.', 'f', 'a', 's', 't', 'a']) =
        some ('>' :: (seq_id ++ ' ' :: (description ++ '\n' :: (sequence ++ ['\n'])))) ∧
      (∀ p, p ≠ seq_id ++ ['.', 'f', 'a', 's', 't', 'a'] →
        (run_save_fasta fs seq_id description sequence).2 p = fs p) ∧
      (run_save_fasta fs "seq1".toList "test sequence".toList "ACGT".toList).1 =
        "seq1.fasta".toList ∧
      (run_save_fasta fs "seq1".toList "test sequence".toList "ACGT".toList).2
          "seq1.fasta".toList =
        some ">seq1 test sequence\nACGT\n".toList := by
  intro seq_id description sequence fs
  refine ⟨rfl, ?_, ?_, rfl, ?_⟩
  · simp [run_save_fasta, save_fasta_file, writeFile]
  · intro p hp
    simp [run_save_fasta, save_fasta_file, writeFile, hp]
  · simp [run_save_fasta, save_fasta_file, writeFile]

/-- C6: whenever `main` succeeds, the statistics it reports are
`calculate_statistics` of the generated pre-insertion sequence (the sequence
determined by the validated length and the `random.choice` outcomes alone);
the right-hand side mentions neither the name, the insertion position, the
identifier, the description nor the file system, so the reported statistics
do not depend on any of them. -/
theorem main_stats_pre_insertion :
    ∀ (lengthStr seq_id_raw description_raw name_raw : List Char)
      (choice : Nat → Fin 4) (insert_position : Nat) (fs : FileSystem),
      Except.map (fun r => r.stats)
          (main lengthStr seq_id_raw description_raw name_raw choice
            insert_position fs) =
        Except.map
          (fun length : Int =>
            calculate_statistics (generate_dna_sequence length.toNat choice))
          (validate_sequence_length lengthStr) := by
  intro lengthStr seq_id_raw description_raw name_raw choice insert_position fs
  unfold main
  cases validate_sequence_length lengthStr <;> rfl

/-- C7: for every length at least one and every outcome of the random
choices, `generate_dna_sequence` returns a sequence of exactly that length
whose characters all belong to {A, C, G, T}. -/
theorem generate_dna_sequence_spec (n : Nat) (choice : Nat → Fin 4)
    (_hn : 1 ≤ n) :
    (generate_dna_sequence n choice).length = n ∧
      ∀ c ∈ generate_dna_sequence n choice, c ∈ nucleotides := by
  constructor
  · simp [generate_dna_sequence]
  · intro c hc
    simp only [generate_dna_sequence, List.mem_map, List.mem_range] at hc
    obtain ⟨i, _, rfl⟩ := hc
    exact List.get_mem nucleotides _ _

/-- C7 witness: length 3 with every draw picking index 0. -/
theorem generate_dna_sequence_spec_witness :
    (generate_dna_sequence 3 (fun _ => 0)).length = 3 ∧
      ∀ c ∈ generate_dna_sequence 3 (fun _ => 0), c ∈ nucleotides :=
  generate_dna_sequence_spec 3 (fun _ => 0) (by norm_num)

/-- C8: on any sequence of length zero `calculate_statistics` takes the
guard branch and returns the constant all-zero mapping, so the division by
the total length in the other branch is never performed on a zero divisor. -/
theorem calculate_statistics_zero_length (s : List Char) (h : s.length = 0) :
    calculate_statistics s = { A := 0, C := 0, G := 0, T := 0, CG := 0 } := by
  unfold calculate_statistics
  simp [h]

/-- C8 witness: the empty sequence. -/
theorem calculate_statistics_zero_length_witness :
    calculate_statistics [] = { A := 0, C := 0, G := 0, T := 0, CG := 0 } :=
  calculate_statistics_zero_length [] rfl

/-- C9: on every nonempty sequence the CG value equals the sum of the C and
G percentages, exactly over rational arithmetic, since all three come from
the same counts and the same divisor. -/
theorem cg_eq_c_add_g (s : List Char) (h : s ≠ []) :
    (calculate_statistics s).CG =
      (calculate_statistics s).C + (calculate_statistics s).G := by
  have hlen : s.length ≠ 0 := fun h0 => h (List.length_eq_zero.mp h0)
  simp only [calculate_statistics, if_neg hlen]
  ring

/-- C9 witness: the sequence "AACGT". -/
theorem cg_eq_c_add_g_witness :
    (calculate_statistics ['A', 'A', 'C', 'G', 'T']).CG =
      (calculate_statistics ['A', 'A', 'C', 'G', 'T']).C +
        (calculate_statistics ['A', 'A', 'C', 'G', 'T']).G :=
  cg_eq_c_add_g ['A', 'A', 'C', 'G', 'T'] (by decide)

/-- C10: every string that Python's `int()` parses to a positive value is
accepted by `validate_sequence_length` — including surrounding whitespace,
a leading sign, and underscore digit separators: " 42 " returns 42, "+7"
returns 7 and "1_000" returns 1000. -/
theorem validate_accepts_all_pyInt (s : List Char) (v : Int)
    (h1 : pyInt s = some v) (h2 : 0 < v) :
    validate_sequence_length s = .ok v ∧
      validate_sequence_length [' ', '4', '2', ' '] = .ok 42 ∧
      validate_sequence_length ['+', '7'] = .ok 7 ∧
      validate_sequence_length ['1', '_', '0', '0', '0'] = .ok 1000 := by
  refine ⟨?_, rfl, rfl, rfl⟩
  simp [validate_sequence_length, h1, not_le.mpr h2]

/-- C10 witness: the padded input " 42 ". -/
theorem validate_accepts_all_pyInt_witness :
    validate_sequence_length [' ', '4', '2', ' '] = .ok 42 ∧
      validate_sequence_length [' ', '4', '2', ' '] = .ok 42 ∧
      validate_sequence_length ['+', '7'] = .ok 7 ∧
      validate_sequence_length ['1', '_', '0', '0', '0'] = .ok 1000 :=
  validate_accepts_all_pyInt [' ', '4', '2', ' '] 42 rfl (by norm_num)

end PBio
